import Mathlib

/-
Verification of the SI-fanfic word-count scraper.

The Python sources are embedded shallowly:
  * Python str values are modeled as lists of characters (PyStr).
  * Python str.find / str.strip / str.replace / slicing / startswith / the
    in-operator are modeled by executable helpers below, with the semantics
    the program relies on (ASCII inputs, nonnegative indices).
  * The network, the HTML parser and the clock are external collaborators:
    functions that consume their results take those results as arguments
    (anchor lists, fetch outcomes, wall-clock readings).
  * re.search / re.match are modeled by a small backtracking regular
    expression engine mirroring Python ordering (greedy tries longer first,
    lazy tries shorter first, leftmost match wins).
-/

/-- Python strings are modeled as lists of characters. -/
abbrev PyStr := List Char

/-- Coerce a Lean string literal to the PyStr model. -/
def pystr (s : String) : PyStr := s.toList

/-- The ASCII whitespace characters recognized by Python str.strip and
the regex class for whitespace (the program only meets ASCII whitespace). -/
def isSpaceChar (c : Char) : Bool :=
  c = ' ' || c = '\t' || c = '\n' || c = '\x0d' || c = '\x0b' || c = '\x0c'

/-- Python str.strip(): remove leading and trailing whitespace. -/
def pyStrip (s : PyStr) : PyStr :=
  ((s.dropWhile isSpaceChar).reverse.dropWhile isSpaceChar).reverse

/-- Smallest index at which sub occurs as a prefix of a suffix of s
(the search core of Python str.find). -/
def findIdxA (sub : PyStr) : PyStr → Option Nat
  | [] => if sub = [] then some 0 else none
  | c :: tl =>
    if sub.isPrefixOf (c :: tl) then some 0
    else (findIdxA sub tl).map (· + 1)

/-- Python str.find(sub, start): lowest index at or after start where sub
occurs, or -1.  (start is nonnegative in this program.) -/
def pyFindFrom (s sub : PyStr) (start : Nat) : Int :=
  if start > s.length then -1
  else
    match findIdxA sub (s.drop start) with
    | some i => ((start + i : Nat) : Int)
    | none => -1

/-- Python str.find(sub). -/
def pyFind (s sub : PyStr) : Int := pyFindFrom s sub 0

/-- Python slice s[a:b] for nonnegative bounds. -/
def pySlice (s : PyStr) (a b : Nat) : PyStr := (s.drop a).take (b - a)

/-- Python str.startswith. -/
def pyStartswith (s pre : PyStr) : Bool := pre.isPrefixOf s

/-- Python substring containment (the in-operator on str). -/
def pyContains (s sub : PyStr) : Bool := (findIdxA sub s).isSome

/-- Python str.replace(old, new): replace non-overlapping occurrences left
to right.  The program only calls it with nonempty old; an empty old is
modeled as a no-op here (Python would interleave new between characters,
a case the program never exercises). -/
def pyReplaceAux (old new : PyStr) : Nat → PyStr → PyStr
  | 0, s => s
  | fuel + 1, s =>
    match s with
    | [] => []
    | c :: tl =>
      if old ≠ [] ∧ old.isPrefixOf (c :: tl) then
        new ++ pyReplaceAux old new fuel (tl.drop (old.length - 1))
      else
        c :: pyReplaceAux old new fuel tl

/-- Python str.replace entry point: a replacement consumes at least one
character, so fuel equal to the length always suffices. -/
def pyReplace (s old new : PyStr) : PyStr := pyReplaceAux old new s.length s

/-- The constant PROBLEM_WORD_COUNT_NOT_FOUND of SI-fanfic-word-count.py. -/
def PROBLEM_WORD_COUNT_NOT_FOUND : PyStr := pystr ("word count not found")

/-- SV.start_text (written out as an explicit character list so that proofs
about its individual characters reduce; it spells "Statistics ("). -/
def SV_start_text : PyStr :=
  ['S', 't', 'a', 't', 'i', 's', 't', 'i', 'c', 's', ' ', '(']

/-- SV.end_text ("words"). -/
def SV_end_text : PyStr := ['w', 'o', 'r', 'd', 's']

/-- SV.get_word_count_text: marker-bounded (Variant A) extraction.  The
under-5-characters branch of the source only prints a warning and does not
change the returned value, so it has no observable effect here. -/
def SV_get_word_count_text (threadmark_text : PyStr) : PyStr :=
  let start := pyFind threadmark_text SV_start_text
  if start = -1 then PROBLEM_WORD_COUNT_NOT_FOUND
  else
    let stop := pyFindFrom threadmark_text SV_end_text start.toNat
    if stop = -1 then PROBLEM_WORD_COUNT_NOT_FOUND
    else
      let wc_text :=
        pySlice threadmark_text (start.toNat + SV_start_text.length) stop.toNat
      if wc_text = [] then PROBLEM_WORD_COUNT_NOT_FOUND else wc_text

/-- Variant A extraction as the specification words it: the end marker is
sought from the end of the start marker, the token between the markers is
trimmed, and an empty trimmed token fails with not-found.  This definition
follows the spec text and is compared against SV_get_word_count_text. -/
def specVariantA (t : PyStr) : PyStr :=
  let start := pyFind t SV_start_text
  if start = -1 then PROBLEM_WORD_COUNT_NOT_FOUND
  else
    let stop := pyFindFrom t SV_end_text (start.toNat + SV_start_text.length)
    if stop = -1 then PROBLEM_WORD_COUNT_NOT_FOUND
    else
      let token :=
        pyStrip (pySlice t (start.toNat + SV_start_text.length) stop.toNat)
      if token = [] then PROBLEM_WORD_COUNT_NOT_FOUND else token

/-- The amended Variant A contract: identical to specVariantA except that
the token between the markers is returned untrimmed, and the emptiness
test is on that raw token. -/
def specVariantA_amended (t : PyStr) : PyStr :=
  let start := pyFind t SV_start_text
  if start = -1 then PROBLEM_WORD_COUNT_NOT_FOUND
  else
    let stop := pyFindFrom t SV_end_text (start.toNat + SV_start_text.length)
    if stop = -1 then PROBLEM_WORD_COUNT_NOT_FOUND
    else
      let token := pySlice t (start.toNat + SV_start_text.length) stop.toNat
      if token = [] then PROBLEM_WORD_COUNT_NOT_FOUND else token

/-- Abstract syntax for the two regular expressions the program uses.
Character classes are predicates; quantifiers carry a laziness flag. -/
inductive Re where
  | eps : Re
  | ch (c : Char) : Re
  | cls (p : Char → Bool) : Re
  | seq (a b : Re) : Re
  | opt (a : Re) (lz : Bool) : Re
  | star (a : Re) (lz : Bool) : Re
  | group (n : Nat) (a : Re) : Re

/-- Captured groups: group number paired with the captured text. -/
abbrev Caps := List (Nat × PyStr)

/-- Backtracking matcher in continuation-passing style, mirroring Python
re ordering: greedy quantifiers offer longer matches first, lazy ones
shorter first, alternatives left to right.  A star iteration that consumes
nothing stops the iteration (as Python does to avoid empty-match loops);
fuel bounds the number of star iterations and is always supplied large
enough (an iteration must consume at least one character to continue). -/
def reMatch : Nat → Re → PyStr → Caps → (PyStr → Caps → Option Caps) → Option Caps
  | 0, _, _, _, _ => none
  | fuel + 1, r, s, caps, k =>
    match r with
    | .eps => k s caps
    | .ch c =>
      match s with
      | [] => none
      | x :: xs => if x = c then k xs caps else none
    | .cls p =>
      match s with
      | [] => none
      | x :: xs => if p x then k xs caps else none
    | .seq a b => reMatch fuel a s caps (fun s' c' => reMatch fuel b s' c' k)
    | .opt a lz =>
      if lz then (k s caps).orElse (fun _ => reMatch fuel a s caps k)
      else (reMatch fuel a s caps k).orElse (fun _ => k s caps)
    | .star a lz =>
      let once :=
        reMatch fuel a s caps (fun s' c' =>
          if s'.length < s.length then reMatch fuel (.star a lz) s' c' k else none)
      if lz then (k s caps).orElse (fun _ => once)
      else once.orElse (fun _ => k s caps)
    | .group n a =>
      reMatch fuel a s caps (fun s' c' =>
        k s' ((n, s.take (s.length - s'.length)) :: c'))

/-- Structural size of a pattern, used only to pick a sufficient fuel. -/
def reSize : Re → Nat
  | .eps => 1
  | .ch _ => 1
  | .cls _ => 1
  | .seq a b => 1 + reSize a + reSize b
  | .opt a _ => 1 + reSize a
  | .star a _ => 1 + reSize a
  | .group _ a => 1 + reSize a

/-- Fuel that exceeds the nesting depth any match attempt can reach: every
frame decrements it once, a star re-enters only after consuming at least
one character, so the depth is below size-times-length-squared. -/
def reFuel (r : Re) (s : PyStr) : Nat :=
  (reSize r + 1) * (s.length + 1) * (s.length + 1) + 1

/-- Python re.match: anchored at the start of the text, a prefix match
suffices. -/
def reMatchAt (r : Re) (s : PyStr) : Option Caps :=
  reMatch (reFuel r s) r s [] (fun _ c => some c)

/-- Scan for the leftmost position where the pattern matches. -/
def reSearchAux (r : Re) : PyStr → Option Caps
  | [] => reMatchAt r []
  | c :: tl =>
    match reMatchAt r (c :: tl) with
    | some cs => some cs
    | none => reSearchAux r tl

/-- Python re.search: leftmost match wins. -/
def reSearch (r : Re) (s : PyStr) : Option Caps := reSearchAux r s

/-- Regex class for a decimal digit (ASCII model of backslash-d). -/
def isDigitChar (c : Char) : Bool := '0' ≤ c && c ≤ '9'

/-- Regex class for a word character (ASCII model of backslash-w). -/
def isWordChar (c : Char) : Bool :=
  isDigitChar c || ('a' ≤ c && c ≤ 'z') || ('A' ≤ c && c ≤ 'Z') || c = '_'

/-- The character class combining whitespace and word characters. -/
def isSpaceWordChar (c : Char) : Bool := isSpaceChar c || isWordChar c

/-- The dot metacharacter: any character except a newline. -/
def isDotChar (c : Char) : Bool := c != '\n'

/-- The magnitude-suffix class: one of k, K, m, M. -/
def isMagChar (c : Char) : Bool := c = 'k' || c = 'K' || c = 'm' || c = 'M'

/-- A literal string as a regex. -/
def reLit : PyStr → Re
  | [] => .eps
  | c :: tl => .seq (.ch c) (reLit tl)

/-- One-or-more: an occurrence followed by a star. -/
def rePlus (a : Re) (lz : Bool) : Re := .seq a (.star a lz)

/-- QQ.threadmark_pattern, transcribed from the source pattern: any number
of tabs; group 1 capturing an optional digits-comma run, digits, then a
run of whitespace/word characters; a literal comma-space Word Count
colon-space; group 2 capturing digits, an optional dot, digits, and an
optional k/K/m/M magnitude suffix. -/
def threadmark_pattern : Re :=
  .seq (.star (.ch '\t') false)
    (.seq (.group 1 (.seq (.opt (.seq (rePlus (.cls isDigitChar) false) (.ch ',')) false)
                       (.seq (rePlus (.cls isDigitChar) false) (rePlus (.cls isSpaceWordChar) false))))
      (.seq (reLit (pystr (", Word Count: ")))
        (.group 2 (.seq (rePlus (.cls isDigitChar) false)
                     (.seq (.opt (.ch '.') false)
                        (.seq (rePlus (.cls isDigitChar) false) (.opt (.cls isMagChar) false)))))))

/-- Return the text captured by a group (groups are recorded once per match). -/
def capGet (caps : Caps) (n : Nat) : PyStr :=
  ((caps.find? (fun p => p.1 == n)).map (fun p => p.2)).getD []

/-- QQ.start_text. -/
def QQ_start_text : PyStr := pystr ("Statistics (")

/-- QQ.get_word_count_text: pattern-bounded (Variant B) extraction. -/
def QQ_get_word_count_text (threadmark_text : PyStr) : PyStr :=
  let start := pyFind threadmark_text QQ_start_text
  if start = -1 then PROBLEM_WORD_COUNT_NOT_FOUND
  else
    let cur_text := threadmark_text.drop (start.toNat + QQ_start_text.length)
    match reSearch threadmark_pattern cur_text with
    | none => PROBLEM_WORD_COUNT_NOT_FOUND
    | some caps => capGet caps 1 ++ pystr (", ") ++ capGet caps 2

/-- The companion filter pattern from SI-fanfic-output-cleanup.py,
transcribed from the source: caret anchor, a lazy one-or-more of any
non-newline character, a literal vertical bar, http with an optional s,
colon-slash-slash, and a lazy one-or-more of any non-newline character. -/
def cleanup_pattern : Re :=
  .seq (rePlus (.cls isDotChar) true)
    (.seq (.ch '|')
      (.seq (reLit (pystr ("http")))
        (.seq (.opt (.ch 's') false)
          (.seq (reLit (pystr ("://"))) (rePlus (.cls isDotChar) true)))))

/-- A line is kept when the anchored pattern matches (re.match). -/
def keepLine (line : PyStr) : Bool := (reMatchAt cleanup_pattern line).isSome

/-- cleanup_output of SI-fanfic-output-cleanup.py: keep the lines matching
the pattern, writing each kept line stripped with a newline re-appended. -/
def cleanup_output (lines : List PyStr) : List PyStr :=
  (lines.filter keepLine).map (fun l => pyStrip l ++ pystr ("\n"))

/-- An anchor element as handed over by the DOM-parsing collaborator:
display text plus an optional href attribute (link.get can return None). -/
structure Anchor where
  text : PyStr
  href : Option PyStr
deriving DecidableEq

/-- The Thread dataclass; word_count defaults to the sentinel "-1". -/
structure ThreadR where
  name : PyStr
  url : PyStr
  word_count : PyStr
deriving DecidableEq

/-- urls_to_ignore. -/
def urls_to_ignore : List PyStr := [pystr ("/threads/rules-terms-of-service")]

/-- Scraper._is_link_useful.  Both parameters can be absent in the source
(link.get can return None); the post-strip is-None re-check of the source
is vacuous in this model and omitted. -/
def is_link_useful (link_raw : Option PyStr) (link_text_raw : Option PyStr) : Bool :=
  match link_raw, link_text_raw with
  | none, _ => false
  | _, none => false
  | some lr, some ltr =>
    if lr = [] || ltr = [] then false
    else
      let link := pyStrip lr
      let link_text := pyStrip ltr
      if !(pyStartswith link (pystr ("http"))) || urls_to_ignore.contains link
          || link_text = [] || pyContains link_text (pystr ("Sufficiently Velocity"))
          || pyContains link_text (pystr ("into a problem")) then false
      else true

/-- The anchor-scanning loop of Scraper.parse_index_page.  An anchor whose
text equals the start marker flips the started flag and is skipped; bars
are deleted from the anchor text; inactive or non-useful anchors are
skipped; a collected anchor whose bar-stripped text equals the end marker
stops the scan after being collected.  The usefulness check guarantees the
href is present, so getD never takes its fallback on a collected anchor. -/
def parseLoop (start_link end_link : PyStr) : List Anchor → Bool → List ThreadR
  | [], _ => []
  | link :: rest, started =>
    if link.text = start_link then parseLoop start_link end_link rest true
    else
      let link_text := pyReplace link.text (pystr ("|")) []
      if !started || !(is_link_useful link.href (some link_text)) then
        parseLoop start_link end_link rest started
      else
        let t : ThreadR := ⟨link_text, link.href.getD [], pystr ("-1")⟩
        if link_text = end_link then [t]
        else t :: parseLoop start_link end_link rest started

/-- Scraper.parse_index_page, taking the anchor list the DOM collaborator
produced for the fetched page; prev_threads, when given, is prepended. -/
def parse_index_page (links : List Anchor) (start_link end_link : PyStr)
    (prev_threads : Option (List ThreadR)) : List ThreadR :=
  let threads := parseLoop start_link end_link links false
  match prev_threads with
  | none => threads
  | some p => p ++ threads

/-- One iteration of the Scraper.retrieve_word_counts loop: the fetch
outcome for the thread (get_word_count, which can raise) is a parameter;
on an error the thread is left untouched and the loop continues, on
success the word count is stored and then newlines are stripped from both
the name and the stored word count. -/
def processOne (fetch : ThreadR → Nat → Nat → Except PyStr PyStr)
    (n : Nat) (p_cur : Nat) (thread : ThreadR) : ThreadR :=
  match fetch thread p_cur n with
  | .error _ => thread
  | .ok wc =>
    ⟨pyReplace thread.name (pystr ("\n")) [], thread.url,
      pyReplace wc (pystr ("\n")) []⟩

/-- The enumerated loop of Scraper.retrieve_word_counts: the index i is
0-based and p_cur is i+1. -/
def retrieveAux (fetch : ThreadR → Nat → Nat → Except PyStr PyStr)
    (n : Nat) : Nat → List ThreadR → List ThreadR
  | _, [] => []
  | i, t :: ts => processOne fetch n (i + 1) t :: retrieveAux fetch n (i + 1) ts

/-- Scraper.retrieve_word_counts. -/
def retrieve_word_counts (fetch : ThreadR → Nat → Nat → Except PyStr PyStr)
    (threads : List ThreadR) : List ThreadR :=
  retrieveAux fetch threads.length 0 threads

/-- One output record as written by the run functions (without the line
terminator): name, url and word_count joined by the bar delimiter. -/
def outputLine (t : ThreadR) : PyStr :=
  t.name ++ pystr ("|") ++ t.url ++ pystr ("|") ++ t.word_count

/-- The RateLimitPoint dataclass; the wall-clock float is modeled as a
rational. -/
structure RateLimitPoint where
  time : ℚ
  requests : Int
deriving DecidableEq

/-- The rate-estimation state owned by Scraper: the rate_limited flag and
the rate_calc sample window. -/
structure ScraperState where
  rate_limited : Bool
  rate_calc : List RateLimitPoint
deriving DecidableEq

/-- Zero-padded two-digit rendering of one duration component, as the
02d format specifier produces it. -/
def pad2 (n : Int) : PyStr :=
  let s := (toString n).toList
  if s.length < 2 then '0' :: s else s

/-- Scraper.fmt_sec: divmod by 60 twice (Python divmod floors) and join
the three zero-padded components with colons. -/
def fmt_sec (sec : Int) : PyStr :=
  let m := sec.fdiv 60
  let s := sec.fmod 60
  let h := m.fdiv 60
  let m2 := m.fmod 60
  pad2 h ++ pystr (":") ++ pad2 m2 ++ pystr (":") ++ pad2 s

/-- Python int() applied to a float: truncation toward zero, which on a
reduced fraction is the numerator T-divided by the denominator. -/
def pyInt (q : ℚ) : Int := q.num.tdiv (q.den : Int)

/-- The rate computed over the retained window: last sample minus first
sample, requests over time.  The window is never empty at the call site;
Python would raise on a zero time difference where this model yields the
rational zero (no claim exercises that case). -/
def window_rate (rc : List RateLimitPoint) : ℚ :=
  let last := rc.getLastD ⟨0, 0⟩
  let first := rc.headD ⟨0, 0⟩
  ((last.requests - first.requests : Int) : ℚ) / (last.time - first.time)

/-- Scraper.hit_rate_limit.  The wall-clock reading is a parameter; the
returned option is the reported rate and formatted ETA (None when the
first throttle of a run reports nothing). -/
def hit_rate_limit (st : ScraperState) (now : ℚ) (p_cur p_max : Int) :
    ScraperState × Option (ℚ × PyStr) :=
  if st.rate_limited = false then
    (⟨true, [⟨now, p_cur⟩]⟩, none)
  else
    let rc0 := st.rate_calc ++ [⟨now, p_cur⟩]
    let rc := if rc0.length > 5 then rc0.tail else rc0
    let rate := window_rate rc
    let eta := ((p_max - p_cur : Int) : ℚ) / rate
    (⟨st.rate_limited, rc⟩, some (rate, fmt_sec (pyInt eta)))

/-- The pair of fields of a collected thread that come straight from its
anchor, used to state order preservation of enumeration. -/
def threadPair (t : ThreadR) : PyStr × PyStr := (t.name, t.url)

/-- The name/href pair an anchor would contribute if collected. -/
def anchorPair (a : Anchor) : PyStr × PyStr :=
  (pyReplace a.text (pystr ("|")) [], a.href.getD [])

/-- A fetch stub used by concrete witnesses: the thread named A fails with
a not-found error, every other fetch succeeds. -/
def exFetch : ThreadR → Nat → Nat → Except PyStr PyStr := fun t _ _ =>
  if t.name = pystr ("A") then Except.error (pystr ("404"))
  else Except.ok (pystr ("9k"))

/-- A two-thread list used by concrete witnesses. -/
def exThreads : List ThreadR :=
  [⟨pystr ("A"), pystr ("u"), pystr ("-1")⟩,
   ⟨pystr ("B"), pystr ("v"), pystr ("-1")⟩]

theorem pyReplaceAux_single (d : Char) :
    ∀ (fuel : Nat) (s : PyStr), s.length ≤ fuel →
      pyReplaceAux [d] [] fuel s = s.filter (fun c => c != d) := by
  intro fuel
  induction fuel with
  | zero =>
    intro s hs
    have hnil : s = [] := List.length_eq_zero.mp (Nat.le_zero.mp hs)
    subst hnil; rfl
  | succ f ih =>
    intro s hs
    cases s with
    | nil => rfl
    | cons c tl =>
      have htl : tl.length ≤ f := by
        simpa using Nat.le_of_succ_le_succ (by simpa using hs)
      rw [pyReplaceAux]
      by_cases hc : d = c
      · rw [if_pos ⟨by simp, by simp [List.isPrefixOf, hc]⟩]
        subst hc
        simp [ih tl htl, List.filter_cons]
      · have hpre : List.isPrefixOf [d] (c :: tl) = false := by
          simp [List.isPrefixOf, hc]
        rw [if_neg (by simp [hpre])]
        rw [ih tl htl]
        simp [List.filter_cons, Ne.symm hc]

theorem pyReplace_single (s : PyStr) (d : Char) :
    pyReplace s [d] [] = s.filter (fun c => c != d) :=
  pyReplaceAux_single d s.length s le_rfl

theorem pyReplace_single_not_mem (s : PyStr) (d : Char) :
    d ∉ pyReplace s [d] [] := by
  rw [pyReplace_single]
  simp [List.mem_filter]

theorem pyReplace_single_subset {c : Char} {s : PyStr} (d : Char)
    (h : c ∈ pyReplace s [d] []) : c ∈ s := by
  rw [pyReplace_single] at h
  exact (List.mem_filter.mp h).1

theorem pystr_bar : pystr ("|") = ['|'] := by decide

theorem pystr_nl : pystr ("\n") = ['\n'] := by decide

theorem findIdxA_some_hit (sub : PyStr) :
    ∀ (s : PyStr) (i : Nat), findIdxA sub s = some i →
      sub.isPrefixOf (s.drop i) = true := by
  intro s
  induction s with
  | nil =>
    intro i h
    rw [findIdxA] at h
    by_cases hs : sub = []
    · subst hs
      simp at h
      subst h
      simp [List.isPrefixOf]
    · simp [hs] at h
  | cons c tl ih =>
    intro i h
    rw [findIdxA] at h
    by_cases hp : sub.isPrefixOf (c :: tl) = true
    · rw [if_pos hp] at h
      obtain rfl : (0 : Nat) = i := by simpa using h
      simpa using hp
    · rw [if_neg hp] at h
      rcases Option.map_eq_some'.mp h with ⟨j, hj, rfl⟩
      rw [List.drop_succ_cons]
      exact ih j hj

theorem pyFindFrom_spec (s sub : PyStr) (st : Nat)
    (h : pyFindFrom s sub st ≠ -1) :
    ∃ n : Nat, pyFindFrom s sub st = (n : Int) ∧
      sub.isPrefixOf (s.drop n) = true ∧ st ≤ n := by
  unfold pyFindFrom at h ⊢
  by_cases h1 : st > s.length
  · rw [if_pos h1] at h
    exact absurd rfl h
  · rw [if_neg h1] at h ⊢
    cases hfa : findIdxA sub (s.drop st) with
    | none => rw [hfa] at h; exact absurd rfl h
    | some i =>
      refine ⟨st + i, rfl, ?_, Nat.le_add_right st i⟩
      have hpre := findIdxA_some_hit sub (s.drop st) i hfa
      rwa [List.drop_drop] at hpre

theorem pyFind_spec (s sub : PyStr) (h : pyFind s sub ≠ -1) :
    ∃ n : Nat, pyFind s sub = (n : Int) ∧ sub.isPrefixOf (s.drop n) = true := by
  obtain ⟨n, hn, hp, -⟩ := pyFindFrom_spec s sub 0 h
  exact ⟨n, hn, hp⟩

theorem pyFindFrom_step (s sub : PyStr) (st : Nat) (hsub : sub ≠ [])
    (h : sub.isPrefixOf (s.drop st) = false) :
    pyFindFrom s sub st = pyFindFrom s sub (st + 1) := by
  unfold pyFindFrom
  by_cases h1 : st > s.length
  · rw [if_pos h1, if_pos (by omega)]
  · by_cases h2 : st = s.length
    · subst h2
      rw [if_neg (by omega), if_pos (by omega)]
      rw [List.drop_length]
      rw [findIdxA]
      simp [hsub]
    · have hlt : st < s.length := by omega
      rw [if_neg (by omega), if_neg (by omega)]
      cases hd : s.drop st with
      | nil =>
        exact absurd (List.drop_eq_nil_iff.mp hd) (by omega)
      | cons c tl =>
        have htl : tl = s.drop (st + 1) := by
          have := List.tail_drop s st
          rw [hd] at this
          simpa using this
        rw [hd] at h
        rw [findIdxA, if_neg (by simp [h]), htl]
        cases hfa : findIdxA sub (s.drop (st + 1)) with
        | none => simp
        | some j =>
          simp only [Option.map_some']
          congr 1
          omega

theorem pyFindFrom_shift (s sub : PyStr) (st : Nat) (hsub : sub ≠ []) :
    ∀ (k : Nat), (∀ j, j < k → sub.isPrefixOf (s.drop (st + j)) = false) →
      pyFindFrom s sub st = pyFindFrom s sub (st + k) := by
  intro k
  induction k with
  | zero => intro _; rfl
  | succ m ih =>
    intro h
    rw [ih (fun j hj => h j (by omega))]
    exact pyFindFrom_step s sub (st + m) hsub (h m (by omega))

theorem isPrefixOf_append_drop :
    ∀ (p s : PyStr), p.isPrefixOf s = true → p ++ s.drop p.length = s := by
  intro p
  induction p with
  | nil => intro s _; simp
  | cons c ps ih =>
    intro s h
    cases s with
    | nil => simp [List.isPrefixOf] at h
    | cons d ss =>
      rw [List.isPrefixOf] at h
      simp only [Bool.and_eq_true, beq_iff_eq] at h
      obtain ⟨rfl, h2⟩ := h
      simp only [List.length_cons, List.drop_succ_cons, List.cons_append,
        List.cons.injEq, true_and]
      exact ih ss h2

theorem sv_marker_head :
    ∀ j, j < SV_start_text.length → (SV_start_text.drop j).head? ≠ some 'w' := by
  decide

theorem sv_prefix_blocks (t : PyStr) (n : Nat)
    (hpref : SV_start_text.isPrefixOf (t.drop n) = true) :
    ∀ j, j < SV_start_text.length →
      SV_end_text.isPrefixOf (t.drop (n + j)) = false := by
  intro j hj
  have hdec : SV_start_text ++ (t.drop n).drop SV_start_text.length = t.drop n :=
    isPrefixOf_append_drop SV_start_text (t.drop n) hpref
  have hdj : t.drop (n + j)
      = SV_start_text.drop j ++ (t.drop n).drop SV_start_text.length := by
    conv_lhs => rw [← List.drop_drop j n t, ← hdec]
    rw [List.drop_append_of_le_length (Nat.le_of_lt hj)]
  by_contra hcon
  have hcon' : SV_end_text.isPrefixOf (t.drop (n + j)) = true := by
    cases hb : SV_end_text.isPrefixOf (t.drop (n + j))
    · exact absurd hb hcon
    · rfl
  rw [hdj] at hcon'
  cases hd : SV_start_text.drop j with
  | nil =>
    have := List.drop_eq_nil_iff.mp hd
    omega
  | cons x xs =>
    rw [hd, List.cons_append] at hcon'
    have hx : x = 'w' := by
      have hw : ('w' == x) = true := by
        have : SV_end_text.isPrefixOf
            (x :: (xs ++ (t.drop n).drop SV_start_text.length)) = true := hcon'
        rw [show SV_end_text = 'w' :: ['o', 'r', 'd', 's'] from rfl] at this
        rw [List.isPrefixOf] at this
        simp only [Bool.and_eq_true] at this
        exact this.1
      exact (beq_iff_eq.mp hw).symm
    have hhead := sv_marker_head j hj
    rw [hd] at hhead
    simp [hx] at hhead

theorem sv_find_from_marker (t : PyStr) (n : Nat)
    (hpref : SV_start_text.isPrefixOf (t.drop n) = true) :
    pyFindFrom t SV_end_text n = pyFindFrom t SV_end_text (n + SV_start_text.length) :=
  pyFindFrom_shift t SV_end_text n (by decide) SV_start_text.length
    (fun j hj => sv_prefix_blocks t n hpref j hj)

/-- Claim C1 (corrected amendment): for every input text, marker-bounded
(Variant A) extraction returns not-found when the start marker is absent,
not-found when the end marker is absent after the end of the start marker, and
otherwise the raw (untrimmed) substring between the markers, except that
an empty raw substring yields not-found — equivalently, the source
function agrees everywhere with the amended contract definition. -/
theorem sv_extraction_amended_contract (t : PyStr) :
    SV_get_word_count_text t = specVariantA_amended t := by
  unfold SV_get_word_count_text specVariantA_amended
  by_cases h : pyFind t SV_start_text = -1
  · rw [h]; simp
  · obtain ⟨n, hn, hpref⟩ := pyFind_spec t SV_start_text h
    rw [hn]
    have hne : ((n : Nat) : Int) ≠ -1 := by omega
    simp only [if_neg hne, Int.toNat_natCast]
    rw [← sv_find_from_marker t n hpref]

/-- Claim C1 (counterexample): on the text consisting of the start marker,
a space-padded digit and the end marker, the source returns the padded
substring while the claimed contract demands the trimmed one, so the claim
as stated is false. -/
theorem sv_extraction_trim_counterexample :
    SV_get_word_count_text (pystr ("Statistics ( 5 words"))
      ≠ specVariantA (pystr ("Statistics ( 5 words")) := by decide

theorem parseLoop_mem_useful (start_link end_link : PyStr) :
    ∀ (links : List Anchor) (b : Bool) (t : ThreadR),
      t ∈ parseLoop start_link end_link links b →
      is_link_useful (some t.url) (some t.name) = true := by
  intro links
  induction links with
  | nil => intro b t h; simp [parseLoop] at h
  | cons a rest ih =>
    intro b t h
    rw [parseLoop] at h
    by_cases h1 : a.text = start_link
    · rw [if_pos h1] at h
      exact ih true t h
    · rw [if_neg h1] at h
      by_cases h2 : (!b || !(is_link_useful a.href (some (pyReplace a.text (pystr ("|")) [])))) = true
      · rw [if_pos h2] at h
        exact ih b t h
      · rw [if_neg h2] at h
        have hor : (!b || !(is_link_useful a.href (some (pyReplace a.text (pystr ("|")) [])))) = false := by
          cases hx : (!b || !(is_link_useful a.href (some (pyReplace a.text (pystr ("|")) []))))
          · rfl
          · exact absurd hx h2
        have huse : is_link_useful a.href (some (pyReplace a.text (pystr ("|")) [])) = true := by
          rcases Bool.or_eq_false_iff.mp hor with ⟨-, hu⟩
          simpa using hu
        cases ha : a.href with
        | none => rw [ha] at huse; simp [is_link_useful] at huse
        | some hr =>
          rw [ha] at huse
          by_cases h3 : pyReplace a.text (pystr ("|")) [] = end_link
          · rw [if_pos h3] at h
            have ht : t = ⟨pyReplace a.text (pystr ("|")) [], a.href.getD [], pystr ("-1")⟩ := by
              simpa using h
            subst ht
            simpa [ha] using huse
          · rw [if_neg h3] at h
            rcases List.mem_cons.mp h with ht | hrest
            · subst ht
              simpa [ha] using huse
            · exact ih b t hrest

theorem parseLoop_sublist (start_link end_link : PyStr) :
    ∀ (links : List Anchor) (b : Bool),
      ((parseLoop start_link end_link links b).map threadPair).Sublist
        (links.map anchorPair) := by
  intro links
  induction links with
  | nil => intro b; simp [parseLoop]
  | cons a rest ih =>
    intro b
    rw [parseLoop]
    by_cases h1 : a.text = start_link
    · rw [if_pos h1]
      exact (ih true).cons _
    · rw [if_neg h1]
      by_cases h2 : (!b || !(is_link_useful a.href (some (pyReplace a.text (pystr ("|")) [])))) = true
      · rw [if_pos h2]
        exact (ih b).cons _
      · rw [if_neg h2]
        by_cases h3 : pyReplace a.text (pystr ("|")) [] = end_link
        · rw [if_pos h3]
          simp only [List.map_cons, List.map_nil]
          exact List.Sublist.cons₂ _ (List.nil_sublist _)
        · rw [if_neg h3]
          simp only [List.map_cons]
          exact List.Sublist.cons₂ _ (ih b)

theorem parseLoop_name_no_bar (start_link end_link : PyStr) :
    ∀ (links : List Anchor) (b : Bool) (t : ThreadR),
      t ∈ parseLoop start_link end_link links b → '|' ∉ t.name := by
  intro links
  induction links with
  | nil => intro b t h; simp [parseLoop] at h
  | cons a rest ih =>
    intro b t h
    rw [parseLoop] at h
    by_cases h1 : a.text = start_link
    · rw [if_pos h1] at h
      exact ih true t h
    · rw [if_neg h1] at h
      by_cases h2 : (!b || !(is_link_useful a.href (some (pyReplace a.text (pystr ("|")) [])))) = true
      · rw [if_pos h2] at h
        exact ih b t h
      · rw [if_neg h2] at h
        by_cases h3 : pyReplace a.text (pystr ("|")) [] = end_link
        · rw [if_pos h3] at h
          have ht : t = ⟨pyReplace a.text (pystr ("|")) [], a.href.getD [], pystr ("-1")⟩ := by
            simpa using h
          subst ht
          simpa [pystr_bar] using pyReplace_single_not_mem a.text '|'
        · rw [if_neg h3] at h
          rcases List.mem_cons.mp h with ht | hrest
          · subst ht
            simpa [pystr_bar] using pyReplace_single_not_mem a.text '|'
          · exact ih b t hrest

theorem is_link_useful_consequences (lr ltr : PyStr)
    (h : is_link_useful (some lr) (some ltr) = true) :
    pyStartswith (pyStrip lr) (pystr ("http")) = true ∧
    pyStrip lr ∉ urls_to_ignore := by
  unfold is_link_useful at h
  dsimp only at h
  split_ifs at h with h0 h1
  simp only [Bool.or_eq_true, not_or, Bool.not_eq_true] at h1
  refine ⟨?_, ?_⟩
  · have := h1.1.1.1.1
    simpa using this
  · have := h1.1.1.1.2
    simpa using this

/-- Claim C2: enumerating the five-anchor example with markers Start/End
yields exactly the Keep and End threads; in general every collected thread
passed the usefulness filter (hence its stripped href starts with http and
is not on the ignore list), and the collected pairs form an
order-preserving sublist of the bar-stripped text/href pairs of the anchors. -/
theorem index_enumeration_contract :
    (parse_index_page
        [⟨pystr ("skip-me"), some (pystr ("x"))⟩,
         ⟨pystr ("Start"), some (pystr ("http://a"))⟩,
         ⟨pystr ("Keep"), some (pystr ("http://b"))⟩,
         ⟨pystr ("End"), some (pystr ("http://c"))⟩,
         ⟨pystr ("ignored"), some (pystr ("http://d"))⟩]
        (pystr ("Start")) (pystr ("End")) none
      = [⟨pystr ("Keep"), pystr ("http://b"), pystr ("-1")⟩,
         ⟨pystr ("End"), pystr ("http://c"), pystr ("-1")⟩]) ∧
    (∀ (s e : PyStr) (links : List Anchor) (b : Bool) (t : ThreadR),
        t ∈ parseLoop s e links b →
        is_link_useful (some t.url) (some t.name) = true ∧
        pyStartswith (pyStrip t.url) (pystr ("http")) = true ∧
        pyStrip t.url ∉ urls_to_ignore) ∧
    (∀ (s e : PyStr) (links : List Anchor) (b : Bool),
        ((parseLoop s e links b).map threadPair).Sublist (links.map anchorPair)) := by
  refine ⟨by decide, ?_, ?_⟩
  · intro s e links b t ht
    have hu := parseLoop_mem_useful s e links b t ht
    have hc := is_link_useful_consequences t.url t.name hu
    exact ⟨hu, hc.1, hc.2⟩
  · intro s e links b
    exact parseLoop_sublist s e links b

/-- Claim C2 witness: the general parts applied to a one-anchor list whose
anchor is collected. -/
theorem index_enumeration_contract_witness :
    is_link_useful (some (pystr ("http://b"))) (some (pystr ("Keep"))) = true ∧
    pyStartswith (pyStrip (pystr ("http://b"))) (pystr ("http")) = true ∧
    pyStrip (pystr ("http://b")) ∉ urls_to_ignore :=
  index_enumeration_contract.2.1 (pystr ("Start")) (pystr ("End"))
    [⟨pystr ("Keep"), some (pystr ("http://b"))⟩] true
    ⟨pystr ("Keep"), pystr ("http://b"), pystr ("-1")⟩ (by decide)

/-- Claim C10: the stop condition is checked only after collecting: a
rejected end-marker anchor does not stop the scan, as the concrete run
shows, and in general any anchor rejected by the usefulness filter is
transparent to an active scan. -/
theorem enumeration_stop_after_collect :
    (parse_index_page
        [⟨pystr ("Start"), some (pystr ("http://a"))⟩,
         ⟨pystr ("A"), some (pystr ("http://b"))⟩,
         ⟨pystr ("End"), some (pystr ("x"))⟩,
         ⟨pystr ("B"), some (pystr ("http://c"))⟩,
         ⟨pystr ("C"), some (pystr ("http://d"))⟩]
        (pystr ("Start")) (pystr ("End")) none
      = [⟨pystr ("A"), pystr ("http://b"), pystr ("-1")⟩,
         ⟨pystr ("B"), pystr ("http://c"), pystr ("-1")⟩,
         ⟨pystr ("C"), pystr ("http://d"), pystr ("-1")⟩]) ∧
    (∀ (s e : PyStr) (a : Anchor) (rest : List Anchor),
        is_link_useful a.href (some (pyReplace a.text (pystr ("|")) [])) = false →
        parseLoop s e (a :: rest) true = parseLoop s e rest true) := by
  refine ⟨by decide, ?_⟩
  intro s e a rest hbad
  rw [parseLoop]
  by_cases h1 : a.text = s
  · rw [if_pos h1]
  · rw [if_neg h1, if_pos (by simp [hbad])]

/-- Claim C10 witness: the transparency part applied to a rejected
end-marker anchor followed by one qualifying anchor. -/
theorem enumeration_stop_after_collect_witness :
    parseLoop (pystr ("Start")) (pystr ("End"))
        [⟨pystr ("End"), some (pystr ("x"))⟩, ⟨pystr ("B"), some (pystr ("http://c"))⟩] true
      = parseLoop (pystr ("Start")) (pystr ("End"))
        [⟨pystr ("B"), some (pystr ("http://c"))⟩] true :=
  enumeration_stop_after_collect.2 (pystr ("Start")) (pystr ("End"))
    ⟨pystr ("End"), some (pystr ("x"))⟩ [⟨pystr ("B"), some (pystr ("http://c"))⟩] (by decide)

/-- Claim C3 (code bug): on the exact input taken from the docstring of
the function itself, pattern-bounded extraction returns the not-found
sentinel, because the configured start marker (the marker-and-parenthesis
string) does not occur in that text — the documented intent is the
threadmarks-and-word-count result the regex would extract. -/
theorem qq_extraction_docstring_example_not_found :
    QQ_get_word_count_text
      (pystr ("Statistics\t\t\t7 threadmarks, Word Count: 4.9k9adam4 (7 threadmarks)"))
      = PROBLEM_WORD_COUNT_NOT_FOUND := by decide

/-- Supporting fact for the C3 divergence: had the marker search
succeeded, the transcribed regex would capture the threadmark descriptor
and the word-count descriptor of the docstring example. -/
theorem qq_pattern_docstring_groups :
    (reSearch threadmark_pattern
      (pystr ("\t\t\t7 threadmarks, Word Count: 4.9k9adam4 (7 threadmarks)"))).map
        (fun caps => capGet caps 1 ++ pystr (", ") ++ capGet caps 2)
      = some (pystr ("7 threadmarks, 4.9k")) := by decide

theorem retrieveAux_getElem (fetch : ThreadR → Nat → Nat → Except PyStr PyStr) (n : Nat) :
    ∀ (ts : List ThreadR) (i j : Nat),
      (retrieveAux fetch n i ts)[j]? = (ts[j]?).map (processOne fetch n (i + j + 1)) := by
  intro ts
  induction ts with
  | nil => intro i j; simp [retrieveAux]
  | cons t ts ih =>
    intro i j
    cases j with
    | zero => simp [retrieveAux]
    | succ j2 =>
      rw [retrieveAux]
      rw [List.getElem?_cons_succ, List.getElem?_cons_succ, ih (i + 1) j2]
      have harith : i + 1 + j2 + 1 = i + (j2 + 1) + 1 := by omega
      rw [harith]

/-- Claim C4: when the fetch for the thread at position j raises a
terminal failure, the orchestrator leaves the word_count of that thread at the
sentinel it held (the default "-1") and still processes every thread whose
fetch succeeds, storing its newline-stripped fetch result. -/
theorem retrieve_word_counts_fault_isolation
    (fetch : ThreadR → Nat → Nat → Except PyStr PyStr) (ts : List ThreadR)
    (j : Nat) (tj : ThreadR) (e : PyStr)
    (hj : ts[j]? = some tj)
    (herr : fetch tj (j + 1) ts.length = Except.error e)
    (hdef : tj.word_count = pystr ("-1")) :
    ((retrieve_word_counts fetch ts)[j]?).map ThreadR.word_count = some (pystr ("-1")) ∧
    (∀ (i : Nat) (ti : ThreadR) (wc : PyStr), ts[i]? = some ti →
      fetch ti (i + 1) ts.length = Except.ok wc →
      ((retrieve_word_counts fetch ts)[i]?).map ThreadR.word_count
        = some (pyReplace wc (pystr ("\n")) [])) := by
  constructor
  · rw [retrieve_word_counts, retrieveAux_getElem fetch ts.length ts 0 j, hj]
    simp only [Nat.zero_add, Option.map_some', processOne, herr]
    simpa using hdef
  · intro i ti wc hi hok
    rw [retrieve_word_counts, retrieveAux_getElem fetch ts.length ts 0 i, hi]
    simp only [Nat.zero_add, Option.map_some', processOne, hok]

/-- Claim C4 witness: a two-thread run where the first fetch fails with a
not-found error and the second succeeds. -/
theorem retrieve_word_counts_fault_isolation_witness :
    ((retrieve_word_counts exFetch exThreads)[0]?).map ThreadR.word_count
      = some (pystr ("-1")) ∧
    (∀ (i : Nat) (ti : ThreadR) (wc : PyStr), exThreads[i]? = some ti →
      exFetch ti (i + 1) exThreads.length = Except.ok wc →
      ((retrieve_word_counts exFetch exThreads)[i]?).map ThreadR.word_count
        = some (pyReplace wc (pystr ("\n")) [])) :=
  retrieve_word_counts_fault_isolation exFetch exThreads 0
    ⟨pystr ("A"), pystr ("u"), pystr ("-1")⟩ (pystr ("404"))
    (by decide) (by rfl) (by decide)

/-- Claim C5 (counterexample): a thread whose anchor text contained a
newline and whose fetch fails keeps the newline in its name — the failure
path skips the stripping — so the emitted record contains a literal
newline and the claim as stated is false. -/
theorem output_newline_counterexample :
    '\n' ∈ outputLine ((retrieve_word_counts
        (fun _ _ _ => Except.error (pystr ("404")))
        [⟨pystr ("a\nb"), pystr ("http://x"), pystr ("-1")⟩]).headD ⟨[], [], []⟩) := by
  decide

/-- Claim C5 (corrected amendment): for a thread whose fetch succeeds the
stored name and word_count contain no newline (and the name gains no bar),
and every thread collected by index enumeration has a bar-free name; a
thread whose fetch fails retains its prior name unchanged, which may still
contain newlines. -/
theorem output_sanitization_amended :
    (∀ (fetch : ThreadR → Nat → Nat → Except PyStr PyStr) (ts : List ThreadR)
        (i : Nat) (ti : ThreadR) (wc : PyStr),
        ts[i]? = some ti → fetch ti (i + 1) ts.length = Except.ok wc →
        ∃ t', (retrieve_word_counts fetch ts)[i]? = some t' ∧
          '\n' ∉ t'.name ∧ '\n' ∉ t'.word_count ∧ ('|' ∉ ti.name → '|' ∉ t'.name)) ∧
    (∀ (s e : PyStr) (links : List Anchor) (b : Bool) (t : ThreadR),
        t ∈ parseLoop s e links b → '|' ∉ t.name) := by
  constructor
  · intro fetch ts i ti wc hi hok
    refine ⟨processOne fetch ts.length (i + 1) ti, ?_, ?_, ?_, ?_⟩
    · rw [retrieve_word_counts, retrieveAux_getElem fetch ts.length ts 0 i, hi]
      simp
    · simp only [processOne, hok]
      rw [pystr_nl]
      exact pyReplace_single_not_mem ti.name '\n'
    · simp only [processOne, hok]
      rw [pystr_nl]
      exact pyReplace_single_not_mem wc '\n'
    · intro hbar
      simp only [processOne, hok]
      rw [pystr_nl]
      intro hmem
      exact hbar (pyReplace_single_subset '\n' hmem)
  · intro s e links b t ht
    exact parseLoop_name_no_bar s e links b t ht

/-- Claim C5 witness: a successful fetch whose raw result and source name
both contain a newline produces a record with both fields stripped. -/
theorem output_sanitization_amended_witness :
    ∃ t', (retrieve_word_counts (fun _ _ _ => Except.ok (pystr ("4\n9k")))
        [⟨pystr ("a\nb"), pystr ("http://x"), pystr ("-1")⟩])[0]? = some t' ∧
      '\n' ∉ t'.name ∧ '\n' ∉ t'.word_count ∧
      ('|' ∉ (⟨pystr ("a\nb"), pystr ("http://x"), pystr ("-1")⟩ : ThreadR).name →
        '|' ∉ t'.name) :=
  output_sanitization_amended.1 (fun _ _ _ => Except.ok (pystr ("4\n9k")))
    [⟨pystr ("a\nb"), pystr ("http://x"), pystr ("-1")⟩] 0
    ⟨pystr ("a\nb"), pystr ("http://x"), pystr ("-1")⟩ (pystr ("4\n9k"))
    (by decide) (by rfl)

/-- Claim C6: over the retained window holding exactly the samples
(time 0, requests 1) and (time 10, requests 6) the computed rate is one
half; the ETA for ten remaining requests truncates to 20 seconds; the
duration formatter renders 20 as 00:00:20; and the throttle handler whose
call produces that window reports exactly that rate and formatted ETA. -/
theorem rate_estimator_example :
    window_rate [⟨0, 1⟩, ⟨10, 6⟩] = (1 : ℚ) / 2 ∧
    pyInt (((16 - 6 : Int) : ℚ) / window_rate [⟨0, 1⟩, ⟨10, 6⟩]) = 20 ∧
    fmt_sec 20 = pystr ("00:00:20") ∧
    hit_rate_limit ⟨true, [⟨0, 1⟩]⟩ 10 6 16
      = (⟨true, [⟨0, 1⟩, ⟨10, 6⟩]⟩, some ((1 : ℚ) / 2, pystr ("00:00:20"))) := by
  have h1 : window_rate [⟨0, 1⟩, ⟨10, 6⟩] = (1 : ℚ) / 2 := by
    simp only [window_rate, List.getLastD, List.headD]
    norm_num
  have h2 : ((10 : ℚ)) / ((1 : ℚ) / 2) = 20 := by norm_num
  have h3 : pyInt 20 = 20 := by decide
  have h4 : fmt_sec 20 = pystr ("00:00:20") := by decide
  refine ⟨h1, ?_, h4, ?_⟩
  · rw [h1]
    have hcast : ((16 - 6 : Int) : ℚ) = 10 := by norm_num
    rw [hcast, h2, h3]
  · simp only [hit_rate_limit, List.cons_append, List.nil_append]
    norm_num
    exact ⟨h1, by rw [h1, h2, h3, h4]⟩

/-- Claim C7: after a call to the throttle handler on a state whose window
held at most five samples the window still holds at most five; on an
already-throttled state the new window is exactly the most recent at most
five of the old samples followed by the new one (the oldest evicted); on
the first throttle the window is reset to the single new sample and no
rate or ETA is reported. -/
theorem rate_window_bounded (st : ScraperState) (now : ℚ) (p_cur p_max : Int)
    (hlen : st.rate_calc.length ≤ 5) :
    ((hit_rate_limit st now p_cur p_max).1.rate_calc.length ≤ 5) ∧
    (st.rate_limited = true →
      (hit_rate_limit st now p_cur p_max).1.rate_calc
        = (st.rate_calc ++ ([⟨now, p_cur⟩] : List RateLimitPoint)).drop
            ((st.rate_calc ++ ([⟨now, p_cur⟩] : List RateLimitPoint)).length - 5)) ∧
    (st.rate_limited = false →
      (hit_rate_limit st now p_cur p_max).1.rate_calc = [⟨now, p_cur⟩] ∧
      (hit_rate_limit st now p_cur p_max).2 = none) := by
  by_cases hb : st.rate_limited = true
  · unfold hit_rate_limit
    rw [if_neg (by simp [hb])]
    dsimp only
    refine ⟨?_, ?_, ?_⟩
    · by_cases h5 : (st.rate_calc ++ ([⟨now, p_cur⟩] : List RateLimitPoint)).length > 5
      · rw [if_pos h5, List.length_tail]
        simp only [List.length_append, List.length_cons, List.length_nil] at h5 ⊢
        omega
      · rw [if_neg h5]
        simp only [List.length_append, List.length_cons, List.length_nil] at h5 ⊢
        omega
    · intro _
      by_cases h5 : (st.rate_calc ++ ([⟨now, p_cur⟩] : List RateLimitPoint)).length > 5
      · rw [if_pos h5]
        have hd1 : (st.rate_calc ++ ([⟨now, p_cur⟩] : List RateLimitPoint)).length - 5 = 1 := by
          simp only [List.length_append, List.length_cons, List.length_nil] at h5 ⊢
          omega
        rw [hd1, List.drop_one]
      · rw [if_neg h5]
        have hd0 : (st.rate_calc ++ ([⟨now, p_cur⟩] : List RateLimitPoint)).length - 5 = 0 := by
          simp only [List.length_append, List.length_cons, List.length_nil] at h5 ⊢
          omega
        rw [hd0, List.drop_zero]
    · intro hfalse
      rw [hb] at hfalse
      exact absurd hfalse (by decide)
  · have hb2 : st.rate_limited = false := by
      cases hx : st.rate_limited
      · rfl
      · exact absurd hx hb
    unfold hit_rate_limit
    rw [if_pos hb2]
    refine ⟨by simp, ?_, fun _ => ⟨rfl, rfl⟩⟩
    intro htrue
    exact absurd htrue hb

/-- Claim C7 witness: a full five-sample window under throttling stays at
five samples after the call. -/
theorem rate_window_bounded_witness :
    (hit_rate_limit ⟨true, [⟨0, 1⟩, ⟨1, 2⟩, ⟨2, 3⟩, ⟨3, 4⟩, ⟨4, 5⟩]⟩ 10 6 16).1.rate_calc.length ≤ 5 :=
  (rate_window_bounded ⟨true, [⟨0, 1⟩, ⟨1, 2⟩, ⟨2, 3⟩, ⟨3, 4⟩, ⟨4, 5⟩]⟩ 10 6 16 (by decide)).1

/-- Claim C8: the throttle handler is the only operation that touches the
estimator state, and it never clears the throttled flag: once the flag is
true it is still true after any further call. -/
theorem rate_limited_flag_monotone (st : ScraperState) (now : ℚ) (p_cur p_max : Int)
    (h : st.rate_limited = true) :
    (hit_rate_limit st now p_cur p_max).1.rate_limited = true := by
  unfold hit_rate_limit
  rw [if_neg (by simp [h])]
  exact h

/-- Claim C8 witness: the flag stays set on a concrete throttled state. -/
theorem rate_limited_flag_monotone_witness :
    (hit_rate_limit ⟨true, [⟨0, 1⟩]⟩ 10 6 16).1.rate_limited = true :=
  rate_limited_flag_monotone ⟨true, [⟨0, 1⟩]⟩ 10 6 16 rfl

/-- Claim C9: the companion filter emits exactly the lines matching the
anchored pattern (stripped, with the newline re-appended), and on the
three-line example it keeps the well-formed record while dropping the
blank line and the site-error line. -/
theorem cleanup_filter_contract :
    (∀ (lines : List PyStr) (l : PyStr),
        l ∈ cleanup_output lines ↔
          ∃ l0, l0 ∈ lines ∧ keepLine l0 = true ∧ l = pyStrip l0 ++ pystr ("\n")) ∧
    (cleanup_output
        [pystr ("Title|https://example.com/threads/x.1/|8 threadmarks, 24k\n"),
         pystr ("\n"),
         pystr ("Oops! We ran into some problems.\n")]
      = [pystr ("Title|https://example.com/threads/x.1/|8 threadmarks, 24k\n")]) := by
  constructor
  · intro lines l
    simp only [cleanup_output, List.mem_map, List.mem_filter]
    constructor
    · rintro ⟨l0, ⟨hmem, hkeep⟩, rfl⟩
      exact ⟨l0, hmem, hkeep, rfl⟩
    · rintro ⟨l0, hmem, hkeep, rfl⟩
      exact ⟨l0, ⟨hmem, hkeep⟩, rfl⟩
  · decide

/-- Claim C9 witness: the kept example line is in the filter output. -/
theorem cleanup_filter_contract_witness :
    pystr ("Title|https://example.com/threads/x.1/|8 threadmarks, 24k\n")
      ∈ cleanup_output [pystr ("Title|https://example.com/threads/x.1/|8 threadmarks, 24k\n")] :=
  (cleanup_filter_contract.1 _ _).mpr
    ⟨pystr ("Title|https://example.com/threads/x.1/|8 threadmarks, 24k\n"),
      by decide, by decide, by decide⟩
